import Mathlib

/-!
Verification of the FabricUtilityApp chaincode (`src/utilityGo/main.go`).

The chaincode manages `Asset` records in the Fabric world state through a
transaction stub offering `GetState`, `PutState`, `DelState` and
`GetStateByRange`.  We embed the world state as an association list of
string keys to stored byte values, kept in lexicographic key order by
`putState` (Fabric's range scan enumerates keys lexicographically).  A
stored value either is the JSON encoding of an asset (`Bytes.enc a`,
`json.Marshal` of a record, which `json.Unmarshal` decodes back to the same
record) or is bytes that do not decode into the `Asset` shape
(`Bytes.malformed`).  Each mutating contract method becomes a function
`Store → args → Except Err Unit × Store`: the Go method's early `return err`
paths yield `.error` with the store as it was (no `PutState`/`DelState` has
run yet), and the single trailing write yields `.ok` with the updated store.
-/

namespace FabricUtility

/-- The `Asset` struct of `main.go`: ID, description, owner, the two
approval flags and the registered flag (Go `int`s, no arithmetic is ever
performed on them). -/
structure Asset where
  ID : String
  Description : String
  Owner : String
  ApprovalOne : Int
  ApprovalTwo : Int
  Registered : Int
deriving DecidableEq, Repr

/-- The `QueryResult` struct of `main.go`: a store key paired with the
decoded record, produced by `GetAllAssets`. -/
structure QueryResult where
  Key : String
  Record : Asset
deriving DecidableEq, Repr

/-- A value stored in the world state: either the JSON encoding of an
asset (what `json.Marshal` produces for an `Asset`) or bytes that
`json.Unmarshal` cannot decode into the `Asset` shape. -/
inductive Bytes where
  | enc (a : Asset)
  | malformed
deriving DecidableEq, Repr

/-- `json.Unmarshal` into an `Asset`: inverts `json.Marshal`, fails on
malformed bytes. -/
def decode : Bytes → Option Asset
  | Bytes.enc a => some a
  | Bytes.malformed => none

/-- The world state: keys with their stored bytes, in lexicographic key
order (the order `GetStateByRange` enumerates). -/
abbrev Store : Type := List (String × Bytes)

/-- `ctx.GetStub().GetState(id)`: the stored bytes, or `none` when the key
is absent. -/
def getState : Store → String → Option Bytes
  | [], _ => none
  | (k, v) :: rest, id => if k = id then some v else getState rest id

/-- Lexicographic order on character lists by codepoint — the order in
which the state database enumerates keys. -/
def keyLtChars : List Char → List Char → Bool
  | [], [] => false
  | [], _ :: _ => true
  | _ :: _, [] => false
  | c :: cs, d :: ds =>
    if c.toNat < d.toNat then true
    else if d.toNat < c.toNat then false
    else keyLtChars cs ds

/-- Lexicographic order on keys. -/
def keyLt (a b : String) : Bool :=
  keyLtChars a.data b.data

/-- `ctx.GetStub().PutState(id, v)`: overwrite the value at `id`, or
insert it at its lexicographic position when absent. -/
def putState : Store → String → Bytes → Store
  | [], id, v => [(id, v)]
  | (k, w) :: rest, id, v =>
    if id = k then (id, v) :: rest
    else if keyLt id k then (id, v) :: (k, w) :: rest
    else (k, w) :: putState rest id v

/-- `ctx.GetStub().DelState(id)`: remove the entry at `id`. -/
def delState : Store → String → Store
  | [], _ => []
  | (k, v) :: rest, id => if k = id then rest else (k, v) :: delState rest id

/-- The error outcomes of the contract methods (§7 of the spec):
`notFound id` for «The asset id does not exist», `alreadyExists id` for
«The asset id already exists», `decodeFailure` for a `json.Unmarshal`
error. -/
inductive Err where
  | notFound (id : String)
  | alreadyExists (id : String)
  | decodeFailure
deriving DecidableEq, Repr

/-- `AssetExists`: `GetState` and compare the result with `nil`. -/
def AssetExists (st : Store) (id : String) : Bool :=
  (getState st id).isSome

/-- `ReadAsset`: `GetState`; error when absent; `json.Unmarshal` the
bytes, propagating a decode error. -/
def ReadAsset (st : Store) (id : String) : Except Err Asset :=
  match getState st id with
  | none => Except.error (Err.notFound id)
  | some b =>
    match decode b with
    | none => Except.error Err.decodeFailure
    | some a => Except.ok a

/-- `CreateAsset`: error when `AssetExists`; otherwise marshal the record
built from exactly the supplied arguments and `PutState` it. -/
def CreateAsset (st : Store) (id description owner : String)
    (approvalOne approvalTwo registered : Int) : Except Err Unit × Store :=
  if AssetExists st id then
    (Except.error (Err.alreadyExists id), st)
  else
    (Except.ok (),
      putState st id (Bytes.enc
        { ID := id, Description := description, Owner := owner,
          ApprovalOne := approvalOne, ApprovalTwo := approvalTwo,
          Registered := registered }))

/-- `UpdateAsset`: error when the asset does not exist; otherwise
overwrite the record with one built from exactly the supplied
arguments. -/
def UpdateAsset (st : Store) (id description owner : String)
    (approvalOne approvalTwo registered : Int) : Except Err Unit × Store :=
  if AssetExists st id then
    (Except.ok (),
      putState st id (Bytes.enc
        { ID := id, Description := description, Owner := owner,
          ApprovalOne := approvalOne, ApprovalTwo := approvalTwo,
          Registered := registered }))
  else
    (Except.error (Err.notFound id), st)

/-- `DeleteAsset`: error when the asset does not exist; otherwise
`DelState` the key. -/
def DeleteAsset (st : Store) (id : String) : Except Err Unit × Store :=
  if AssetExists st id then
    (Except.ok (), delState st id)
  else
    (Except.error (Err.notFound id), st)

/-- `TransferAsset`: `ReadAsset` (propagating its error), set `Owner` to
`newOwner`, marshal and `PutState`. -/
def TransferAsset (st : Store) (id newOwner : String) : Except Err Unit × Store :=
  match ReadAsset st id with
  | Except.error e => (Except.error e, st)
  | Except.ok asset =>
    (Except.ok (), putState st id (Bytes.enc { asset with Owner := newOwner }))

/-- `ApproveRequestOne`: `ReadAsset` (propagating its error), set
`ApprovalOne` to 1, marshal and `PutState`. -/
def ApproveRequestOne (st : Store) (id : String) : Except Err Unit × Store :=
  match ReadAsset st id with
  | Except.error e => (Except.error e, st)
  | Except.ok asset =>
    (Except.ok (), putState st id (Bytes.enc { asset with ApprovalOne := 1 }))

/-- `ApproveRequestTwo`: `ReadAsset` (propagating its error), set
`ApprovalTwo` to 1 and `Registered` to 1, marshal and `PutState`. -/
def ApproveRequestTwo (st : Store) (id : String) : Except Err Unit × Store :=
  match ReadAsset st id with
  | Except.error e => (Except.error e, st)
  | Except.ok asset =>
    (Except.ok (),
      putState st id (Bytes.enc { asset with ApprovalTwo := 1, Registered := 1 }))

/-- The first seed record of `InitLedger`. -/
def asset1 : Asset :=
  { ID := "asset1", Description := "myAsset", Owner := "Org1",
    ApprovalOne := 0, ApprovalTwo := 0, Registered := 0 }

/-- The second seed record of `InitLedger`. -/
def asset2 : Asset :=
  { ID := "asset2", Description := "anotherAsset", Owner := "Org1",
    ApprovalOne := 0, ApprovalTwo := 0, Registered := 0 }

/-- `InitLedger`: `PutState` the two fixed seed records, `asset1` then
`asset2`, with no existence check. -/
def InitLedger (st : Store) : Except Err Unit × Store :=
  (Except.ok (),
    putState (putState st asset1.ID (Bytes.enc asset1)) asset2.ID (Bytes.enc asset2))

/-- `GetAllAssets`: scan every store entry in order, `json.Unmarshal`
each value and pair it with its key; abort with the decode error on the
first malformed entry. -/
def GetAllAssets : Store → Except Err (List QueryResult)
  | [] => Except.ok []
  | (k, v) :: rest =>
    match decode v with
    | none => Except.error Err.decodeFailure
    | some a =>
      match GetAllAssets rest with
      | Except.error e => Except.error e
      | Except.ok results => Except.ok ({ Key := k, Record := a } :: results)

/-- The `Registered` field of the record stored at `id`, when a record is
there and decodes; `none` otherwise. -/
def registeredOf (st : Store) (id : String) : Option Int :=
  match ReadAsset st id with
  | Except.ok a => some a.Registered
  | Except.error _ => none

theorem getState_putState_self (st : Store) (id : String) (v : Bytes) :
    getState (putState st id v) id = some v := by
  induction st with
  | nil => simp [putState, getState]
  | cons p rest ih =>
    obtain ⟨k, w⟩ := p
    by_cases hk : id = k
    · simp [putState, hk, getState]
    · by_cases hlt : keyLt id k = true
      · simp [putState, hk, hlt, getState]
      · simp [putState, hk, hlt, getState, Ne.symm hk, ih]

theorem getState_putState_ne (st : Store) (id k : String) (v : Bytes)
    (h : k ≠ id) : getState (putState st id v) k = getState st k := by
  induction st with
  | nil => simp [putState, getState, Ne.symm h]
  | cons p rest ih =>
    obtain ⟨k', w⟩ := p
    by_cases hk : id = k'
    · subst hk
      simp [putState, getState, Ne.symm h]
    · by_cases hlt : keyLt id k' = true
      · simp [putState, hk, hlt, getState, Ne.symm h]
      · by_cases hkk : k' = k
        · subst hkk
          simp [putState, hk, hlt, getState]
        · simp [putState, hk, hlt, getState, hkk, ih]

theorem getState_delState_ne (st : Store) (id k : String) (h : k ≠ id) :
    getState (delState st id) k = getState st k := by
  induction st with
  | nil => simp [delState]
  | cons p rest ih =>
    obtain ⟨k', w⟩ := p
    by_cases hk : k' = id
    · subst hk
      simp [delState, getState, Ne.symm h]
    · by_cases hkk : k' = k
      · subst hkk
        simp [delState, hk, getState]
      · simp [delState, hk, getState, hkk, ih]

theorem getState_eq_none_iff (st : Store) (id : String) :
    getState st id = none ↔ ∀ p ∈ st, p.1 ≠ id := by
  induction st with
  | nil => simp [getState]
  | cons p rest ih =>
    obtain ⟨k, w⟩ := p
    by_cases hk : k = id
    · simp [getState, hk]
    · simp [getState, hk, ih]

theorem getState_delState_self (st : Store) (id : String)
    (h : (st.map Prod.fst).Nodup) : getState (delState st id) id = none := by
  induction st with
  | nil => simp [delState, getState]
  | cons p rest ih =>
    obtain ⟨k, w⟩ := p
    simp only [List.map_cons, List.nodup_cons] at h
    by_cases hk : k = id
    · subst hk
      simp only [delState, if_pos rfl]
      rw [getState_eq_none_iff]
      intro q hq hq1
      exact h.1 (hq1 ▸ List.mem_map_of_mem Prod.fst hq)
    · simp [delState, hk, getState, ih h.2]

theorem delState_putState_absent (st : Store) (id : String) (v : Bytes)
    (h : getState st id = none) : delState (putState st id v) id = st := by
  induction st with
  | nil => simp [putState, delState]
  | cons p rest ih =>
    obtain ⟨k, w⟩ := p
    simp only [getState] at h
    by_cases hk : k = id
    · simp [hk] at h
    · by_cases hlt : keyLt id k = true
      · simp [putState, Ne.symm hk, hlt, delState, hk]
      · simp only [putState, if_neg (Ne.symm hk), if_neg hlt]
        simp [delState, hk, ih (by simpa [hk] using h)]

theorem putState_putState_same (st : Store) (id : String) (v w : Bytes) :
    putState (putState st id v) id w = putState st id w := by
  induction st with
  | nil => simp [putState]
  | cons p rest ih =>
    obtain ⟨k, u⟩ := p
    by_cases hk : id = k
    · simp [putState, hk]
    · by_cases hlt : keyLt id k = true
      · simp [putState, hk, hlt]
      · simp [putState, hk, hlt, ih]

theorem ReadAsset_putState_enc (st : Store) (id : String) (a : Asset) :
    ReadAsset (putState st id (Bytes.enc a)) id = Except.ok a := by
  simp [ReadAsset, getState_putState_self, decode]

theorem ReadAsset_putState_ne (st : Store) (id k : String) (v : Bytes)
    (h : k ≠ id) : ReadAsset (putState st id v) k = ReadAsset st k := by
  simp [ReadAsset, getState_putState_ne st id k v h]

/-- C1: for every existing asset id, `ApproveRequestTwo` succeeds, sets
`ApprovalTwo` to 1 and `Registered` to 1 unconditionally — whatever the
current `ApprovalOne` (the record `a` is arbitrary) — and writes the record
back with `ID`, `Description` and `Owner` unchanged. -/
theorem C1_approveSecond_sets_both_flags (st : Store) (id : String) (a : Asset)
    (h : ReadAsset st id = Except.ok a) :
    (ApproveRequestTwo st id).1 = Except.ok () ∧
    ReadAsset (ApproveRequestTwo st id).2 id =
      Except.ok { a with ApprovalTwo := 1, Registered := 1 } := by
  simp [ApproveRequestTwo, h, ReadAsset_putState_enc]

/-- C1 witness: a concrete record with `ApprovalOne = 0` whose second
approval still yields `ApprovalTwo = 1` and `Registered = 1`. -/
theorem C1_approveSecond_witness :
    (ApproveRequestTwo [("a", Bytes.enc
      { ID := "a", Description := "d", Owner := "o",
        ApprovalOne := 0, ApprovalTwo := 0, Registered := 0 })] "a").1 = Except.ok () ∧
    ReadAsset (ApproveRequestTwo [("a", Bytes.enc
      { ID := "a", Description := "d", Owner := "o",
        ApprovalOne := 0, ApprovalTwo := 0, Registered := 0 })] "a").2 "a" =
      Except.ok
        { ID := "a", Description := "d", Owner := "o",
          ApprovalOne := 0, ApprovalTwo := 1, Registered := 1 } :=
  C1_approveSecond_sets_both_flags _ "a"
    { ID := "a", Description := "d", Owner := "o",
      ApprovalOne := 0, ApprovalTwo := 0, Registered := 0 } rfl

/-- C3: for every id absent from the store, `CreateAsset` succeeds and a
subsequent `ReadAsset` returns a record whose six fields are exactly the
supplied values. -/
theorem C3_create_then_read_exact (st : Store) (id d o : String) (x y r : Int)
    (h : getState st id = none) :
    (CreateAsset st id d o x y r).1 = Except.ok () ∧
    ReadAsset (CreateAsset st id d o x y r).2 id =
      Except.ok
        { ID := id, Description := d, Owner := o,
          ApprovalOne := x, ApprovalTwo := y, Registered := r } := by
  simp [CreateAsset, AssetExists, h, ReadAsset_putState_enc]

/-- C3 witness: creating `asset3` in the empty store and reading it back. -/
theorem C3_create_then_read_witness :
    (CreateAsset [] "asset3" "desc" "Org2" 0 0 0).1 = Except.ok () ∧
    ReadAsset (CreateAsset [] "asset3" "desc" "Org2" 0 0 0).2 "asset3" =
      Except.ok
        { ID := "asset3", Description := "desc", Owner := "Org2",
          ApprovalOne := 0, ApprovalTwo := 0, Registered := 0 } :=
  C3_create_then_read_exact [] "asset3" "desc" "Org2" 0 0 0 rfl

/-- C4: for every id already present in the store, `CreateAsset` fails
with `AlreadyExists` and leaves the store — hence the existing record —
exactly as it was. -/
theorem C4_create_existing_fails (st : Store) (id d o : String) (x y r : Int)
    (h : AssetExists st id = true) :
    (CreateAsset st id d o x y r).1 = Except.error (Err.alreadyExists id) ∧
    (CreateAsset st id d o x y r).2 = st := by
  simp [CreateAsset, h]

/-- C4 witness: re-creating an occupied key fails and the store is
untouched. -/
theorem C4_create_existing_witness :
    (CreateAsset [("a", Bytes.enc asset1)] "a" "d2" "o2" 1 1 1).1 =
      Except.error (Err.alreadyExists "a") ∧
    (CreateAsset [("a", Bytes.enc asset1)] "a" "d2" "o2" 1 1 1).2 =
      [("a", Bytes.enc asset1)] :=
  C4_create_existing_fails [("a", Bytes.enc asset1)] "a" "d2" "o2" 1 1 1 rfl

/-- C6: for every existing asset id and any `newOwner`, `TransferAsset`
succeeds and the stored record keeps `ID`, `Description`, `ApprovalOne`,
`ApprovalTwo` and `Registered` while `Owner` becomes `newOwner`. -/
theorem C6_transfer_changes_only_owner (st : Store) (id nw : String) (a : Asset)
    (h : ReadAsset st id = Except.ok a) :
    (TransferAsset st id nw).1 = Except.ok () ∧
    ReadAsset (TransferAsset st id nw).2 id = Except.ok { a with Owner := nw } := by
  simp [TransferAsset, h, ReadAsset_putState_enc]

/-- C6 witness: transferring a concrete record to `Org2` changes only the
owner. -/
theorem C6_transfer_witness :
    (TransferAsset [("asset1", Bytes.enc asset1)] "asset1" "Org2").1 = Except.ok () ∧
    ReadAsset (TransferAsset [("asset1", Bytes.enc asset1)] "asset1" "Org2").2 "asset1" =
      Except.ok
        { ID := "asset1", Description := "myAsset", Owner := "Org2",
          ApprovalOne := 0, ApprovalTwo := 0, Registered := 0 } :=
  C6_transfer_changes_only_owner [("asset1", Bytes.enc asset1)] "asset1" "Org2" asset1 rfl

/-- C7: for every existing asset id, `ApproveRequestOne` succeeds, sets
`ApprovalOne` to 1 leaving every other field untouched, and is idempotent:
running it a second time leaves the store produced by the first run
unchanged. -/
theorem C7_approveFirst_idempotent (st : Store) (id : String) (a : Asset)
    (h : ReadAsset st id = Except.ok a) :
    (ApproveRequestOne st id).1 = Except.ok () ∧
    ReadAsset (ApproveRequestOne st id).2 id = Except.ok { a with ApprovalOne := 1 } ∧
    (ApproveRequestOne (ApproveRequestOne st id).2 id).2 = (ApproveRequestOne st id).2 := by
  refine ⟨by simp [ApproveRequestOne, h], by simp [ApproveRequestOne, h, ReadAsset_putState_enc], ?_⟩
  simp [ApproveRequestOne, h, ReadAsset_putState_enc, putState_putState_same]

/-- C7 witness: one and two first approvals of a concrete record. -/
theorem C7_approveFirst_witness :
    (ApproveRequestOne [("asset1", Bytes.enc asset1)] "asset1").1 = Except.ok () ∧
    ReadAsset (ApproveRequestOne [("asset1", Bytes.enc asset1)] "asset1").2 "asset1" =
      Except.ok
        { ID := "asset1", Description := "myAsset", Owner := "Org1",
          ApprovalOne := 1, ApprovalTwo := 0, Registered := 0 } ∧
    (ApproveRequestOne (ApproveRequestOne [("asset1", Bytes.enc asset1)] "asset1").2 "asset1").2 =
      (ApproveRequestOne [("asset1", Bytes.enc asset1)] "asset1").2 :=
  C7_approveFirst_idempotent [("asset1", Bytes.enc asset1)] "asset1" asset1 rfl

/-- C5: for every id absent from the store, `ReadAsset`, `UpdateAsset`,
`DeleteAsset`, `TransferAsset`, `ApproveRequestOne` and `ApproveRequestTwo`
all fail with `NotFound`, while `AssetExists` returns `false` (by its type
it returns a plain boolean, never a `NotFound` error), `true` right after a
`CreateAsset` of that id, and `false` again after the subsequent
`DeleteAsset`. -/
theorem C5_absent_ids_not_found (st : Store) (id d o nw : String) (x y r : Int)
    (h : getState st id = none) :
    ReadAsset st id = Except.error (Err.notFound id) ∧
    (UpdateAsset st id d o x y r).1 = Except.error (Err.notFound id) ∧
    (DeleteAsset st id).1 = Except.error (Err.notFound id) ∧
    (TransferAsset st id nw).1 = Except.error (Err.notFound id) ∧
    (ApproveRequestOne st id).1 = Except.error (Err.notFound id) ∧
    (ApproveRequestTwo st id).1 = Except.error (Err.notFound id) ∧
    AssetExists st id = false ∧
    AssetExists (CreateAsset st id d o x y r).2 id = true ∧
    AssetExists (DeleteAsset (CreateAsset st id d o x y r).2 id).2 id = false := by
  have hr : ReadAsset st id = Except.error (Err.notFound id) := by
    simp [ReadAsset, h]
  have hex : AssetExists st id = false := by
    simp [AssetExists, h]
  refine ⟨hr, ?_, ?_, ?_, ?_, ?_, hex, ?_, ?_⟩
  · simp [UpdateAsset, hex]
  · simp [DeleteAsset, hex]
  · simp [TransferAsset, hr]
  · simp [ApproveRequestOne, hr]
  · simp [ApproveRequestTwo, hr]
  · simp [CreateAsset, AssetExists, h, getState_putState_self]
  · simp [CreateAsset, AssetExists, h, DeleteAsset, getState_putState_self,
      delState_putState_absent]

/-- C5 witness: the id `ghost` in a one-record store. -/
theorem C5_absent_ids_witness :
    ReadAsset [("a", Bytes.enc asset1)] "ghost" = Except.error (Err.notFound "ghost") ∧
    (UpdateAsset [("a", Bytes.enc asset1)] "ghost" "d" "o" 0 0 0).1 =
      Except.error (Err.notFound "ghost") ∧
    (DeleteAsset [("a", Bytes.enc asset1)] "ghost").1 = Except.error (Err.notFound "ghost") ∧
    (TransferAsset [("a", Bytes.enc asset1)] "ghost" "n").1 =
      Except.error (Err.notFound "ghost") ∧
    (ApproveRequestOne [("a", Bytes.enc asset1)] "ghost").1 =
      Except.error (Err.notFound "ghost") ∧
    (ApproveRequestTwo [("a", Bytes.enc asset1)] "ghost").1 =
      Except.error (Err.notFound "ghost") ∧
    AssetExists [("a", Bytes.enc asset1)] "ghost" = false ∧
    AssetExists (CreateAsset [("a", Bytes.enc asset1)] "ghost" "d" "o" 0 0 0).2 "ghost" = true ∧
    AssetExists
      (DeleteAsset (CreateAsset [("a", Bytes.enc asset1)] "ghost" "d" "o" 0 0 0).2 "ghost").2
      "ghost" = false :=
  C5_absent_ids_not_found [("a", Bytes.enc asset1)] "ghost" "d" "o" "n" 0 0 0 rfl

/-- C8: from the empty store, `InitLedger` succeeds and `GetAllAssets`
returns exactly the two seed entries in key order `asset1`, `asset2`, with
the preset descriptions and owner and all flags 0. -/
theorem C8_initLedger_then_getAll :
    (InitLedger []).1 = Except.ok () ∧
    GetAllAssets (InitLedger []).2 =
      Except.ok
        [{ Key := "asset1",
           Record := { ID := "asset1", Description := "myAsset", Owner := "Org1",
                       ApprovalOne := 0, ApprovalTwo := 0, Registered := 0 } },
         { Key := "asset2",
           Record := { ID := "asset2", Description := "anotherAsset", Owner := "Org1",
                       ApprovalOne := 0, ApprovalTwo := 0, Registered := 0 } }] :=
  ⟨rfl, rfl⟩

/-- The record held in a store value, defaulting to a blank record on
bytes that do not decode (only ever used under a hypothesis ruling the
default out). -/
def decodeD (b : Bytes) : Asset :=
  (decode b).getD
    { ID := "", Description := "", Owner := "",
      ApprovalOne := 0, ApprovalTwo := 0, Registered := 0 }

theorem getAllAssets_error_of_malformed (st : Store) (k : String)
    (h : (k, Bytes.malformed) ∈ st) :
    GetAllAssets st = Except.error Err.decodeFailure := by
  induction st with
  | nil => simp at h
  | cons p rest ih =>
    obtain ⟨k', v⟩ := p
    rcases List.mem_cons.mp h with h1 | h2
    · injection h1 with h1a h1b
      subst h1b
      simp [GetAllAssets, decode]
    · cases v with
      | malformed => simp [GetAllAssets, decode]
      | enc a => simp [GetAllAssets, decode, ih h2]

theorem getAllAssets_ok_of_wellformed (st : Store)
    (h : ∀ p ∈ st, p.2 ≠ Bytes.malformed) :
    GetAllAssets st =
      Except.ok (st.map fun p => { Key := p.1, Record := decodeD p.2 }) := by
  induction st with
  | nil => simp [GetAllAssets]
  | cons p rest ih =>
    obtain ⟨k, v⟩ := p
    have hv : v ≠ Bytes.malformed := h (k, v) (List.mem_cons_self _ _)
    cases v with
    | malformed => exact absurd rfl hv
    | enc a =>
      have hrest := ih fun q hq => h q (List.mem_cons_of_mem _ hq)
      simp [GetAllAssets, decode, hrest, decodeD]

/-- C9: for every store, if some entry holds malformed bytes then
`GetAllAssets` returns the decode error and no result list at all, and if
every entry decodes it returns the full ordered list of `{Key, Record}`
pairs, one per store entry in store order. -/
theorem C9_getAll_all_or_nothing (st : Store) :
    (∀ k, (k, Bytes.malformed) ∈ st → GetAllAssets st = Except.error Err.decodeFailure) ∧
    ((∀ p ∈ st, p.2 ≠ Bytes.malformed) →
      GetAllAssets st =
        Except.ok (st.map fun p => { Key := p.1, Record := decodeD p.2 })) :=
  ⟨fun k hk => getAllAssets_error_of_malformed st k hk,
   fun h => getAllAssets_ok_of_wellformed st h⟩

/-- C9 witness: a store with a malformed entry yields only the error, and
a well-formed two-entry store yields both pairs. -/
theorem C9_getAll_witness :
    GetAllAssets [("a", Bytes.enc asset1), ("bad", Bytes.malformed)] =
      Except.error Err.decodeFailure ∧
    GetAllAssets [("a", Bytes.enc asset1), ("b", Bytes.enc asset2)] =
      Except.ok [{ Key := "a", Record := asset1 }, { Key := "b", Record := asset2 }] := by
  constructor
  · exact (C9_getAll_all_or_nothing _).1 "bad" (by simp)
  · have h := (C9_getAll_all_or_nothing [("a", Bytes.enc asset1), ("b", Bytes.enc asset2)]).2
      (by simp)
    simpa [decodeD, decode] using h

/-- C10: every single-record mutating operation that returns an error
leaves the store exactly as it was before the call — each one performs
its sole write or delete only as its final step, after all checks
succeed. -/
theorem C10_error_leaves_store_unchanged (st : Store) (id d o nw : String)
    (x y r : Int) (e : Err) :
    ((CreateAsset st id d o x y r).1 = Except.error e →
      (CreateAsset st id d o x y r).2 = st) ∧
    ((UpdateAsset st id d o x y r).1 = Except.error e →
      (UpdateAsset st id d o x y r).2 = st) ∧
    ((DeleteAsset st id).1 = Except.error e → (DeleteAsset st id).2 = st) ∧
    ((TransferAsset st id nw).1 = Except.error e → (TransferAsset st id nw).2 = st) ∧
    ((ApproveRequestOne st id).1 = Except.error e → (ApproveRequestOne st id).2 = st) ∧
    ((ApproveRequestTwo st id).1 = Except.error e → (ApproveRequestTwo st id).2 = st) := by
  refine ⟨?_, ?_, ?_, ?_, ?_, ?_⟩ <;> intro hE
  · by_cases hx : AssetExists st id <;> simp [CreateAsset, hx] at hE ⊢
  · by_cases hx : AssetExists st id <;> simp [UpdateAsset, hx] at hE ⊢
  · by_cases hx : AssetExists st id <;> simp [DeleteAsset, hx] at hE ⊢
  · cases hr : ReadAsset st id with
    | error err => simp [TransferAsset, hr]
    | ok a => simp [TransferAsset, hr] at hE
  · cases hr : ReadAsset st id with
    | error err => simp [ApproveRequestOne, hr]
    | ok a => simp [ApproveRequestOne, hr] at hE
  · cases hr : ReadAsset st id with
    | error err => simp [ApproveRequestTwo, hr]
    | ok a => simp [ApproveRequestTwo, hr] at hE

/-- C10 witness: a failing `CreateAsset` (occupied key) and a failing
`TransferAsset` (absent key) both leave the concrete store intact. -/
theorem C10_error_witness :
    (CreateAsset [("a", Bytes.enc asset1)] "a" "d" "o" 0 0 0).2 =
      [("a", Bytes.enc asset1)] ∧
    (TransferAsset [("a", Bytes.enc asset1)] "ghost" "n").2 =
      [("a", Bytes.enc asset1)] :=
  ⟨(C10_error_leaves_store_unchanged [("a", Bytes.enc asset1)] "a" "d" "o" "n" 0 0 0
      (Err.alreadyExists "a")).1 rfl,
   (C10_error_leaves_store_unchanged [("a", Bytes.enc asset1)] "ghost" "d" "o" "n" 0 0 0
      (Err.notFound "ghost")).2.2.2.1 rfl⟩

/-- C2 counterexample: `InitLedger` — an operation other than
`UpdateAsset` — resets a stored `Registered = 1` back to 0: it overwrites
the record at key `asset1` with the seed record (all flags 0) without any
existence check, refuting «no operation resets it to 0 once set except a
full overwrite via UpdateAsset». -/
theorem C2_initLedger_resets_registered :
    registeredOf
      [("asset1", Bytes.enc
        { ID := "asset1", Description := "myAsset", Owner := "Org1",
          ApprovalOne := 1, ApprovalTwo := 1, Registered := 1 })] "asset1" = some 1 ∧
    registeredOf
      (InitLedger
        [("asset1", Bytes.enc
          { ID := "asset1", Description := "myAsset", Owner := "Org1",
            ApprovalOne := 1, ApprovalTwo := 1, Registered := 1 })]).2 "asset1" = some 0 :=
  ⟨rfl, rfl⟩

/-- C2 (amended): among the operations that take no `registered` argument
other than the seed routine — `TransferAsset`, `ApproveRequestOne`,
`DeleteAsset`, `ApproveRequestTwo` — only the second approval ever writes
`Registered = 1`, none resets a stored `Registered` to 0, and a successful
second approval always leaves `Registered = 1` on its target:
`TransferAsset` and `ApproveRequestOne` preserve every record's
`Registered`; `DeleteAsset` preserves it at every other key and at most
removes its target (with distinct keys); `ApproveRequestTwo` preserves it
at every other key and sets its target's to 1.  (`CreateAsset` and
`UpdateAsset` store whatever `registered` the caller supplies, and
`InitLedger` overwrites `asset1`/`asset2` with flag 0.) -/
theorem C2_registered_invariant (st : Store) (id k nw : String) :
    registeredOf (TransferAsset st id nw).2 k = registeredOf st k ∧
    registeredOf (ApproveRequestOne st id).2 k = registeredOf st k ∧
    (k ≠ id → registeredOf (DeleteAsset st id).2 k = registeredOf st k) ∧
    ((st.map Prod.fst).Nodup →
      registeredOf (DeleteAsset st id).2 id = none ∨ (DeleteAsset st id).2 = st) ∧
    (k ≠ id → registeredOf (ApproveRequestTwo st id).2 k = registeredOf st k) ∧
    ((ApproveRequestTwo st id).1 = Except.ok () →
      registeredOf (ApproveRequestTwo st id).2 id = some 1) := by
  refine ⟨?_, ?_, ?_, ?_, ?_, ?_⟩
  · cases hr : ReadAsset st id with
    | error e => simp [TransferAsset, hr]
    | ok a =>
      by_cases hk : k = id
      · subst hk
        simp [TransferAsset, hr, registeredOf, ReadAsset_putState_enc]
      · simp [TransferAsset, hr, registeredOf, ReadAsset_putState_ne st id k _ hk]
  · cases hr : ReadAsset st id with
    | error e => simp [ApproveRequestOne, hr]
    | ok a =>
      by_cases hk : k = id
      · subst hk
        simp [ApproveRequestOne, hr, registeredOf, ReadAsset_putState_enc]
      · simp [ApproveRequestOne, hr, registeredOf, ReadAsset_putState_ne st id k _ hk]
  · intro hk
    by_cases hx : AssetExists st id
    · simp [DeleteAsset, hx, registeredOf, ReadAsset, getState_delState_ne st id k hk]
    · simp [DeleteAsset, hx]
  · intro hnd
    by_cases hx : AssetExists st id
    · exact Or.inl (by
        simp [DeleteAsset, hx, registeredOf, ReadAsset, getState_delState_self st id hnd])
    · exact Or.inr (by simp [DeleteAsset, hx])
  · intro hk
    cases hr : ReadAsset st id with
    | error e => simp [ApproveRequestTwo, hr]
    | ok a => simp [ApproveRequestTwo, hr, registeredOf, ReadAsset_putState_ne st id k _ hk]
  · intro hok
    cases hr : ReadAsset st id with
    | error e => simp [ApproveRequestTwo, hr] at hok
    | ok a => simp [ApproveRequestTwo, hr, registeredOf, ReadAsset_putState_enc]

/-- C2 witness: the amended invariant evaluated on a concrete one-record
store, with each hypothesis discharged. -/
theorem C2_registered_invariant_witness :
    registeredOf (TransferAsset [("a", Bytes.enc asset1)] "a" "x").2 "b" =
      registeredOf [("a", Bytes.enc asset1)] "b" ∧
    registeredOf (ApproveRequestOne [("a", Bytes.enc asset1)] "a").2 "b" =
      registeredOf [("a", Bytes.enc asset1)] "b" ∧
    registeredOf (DeleteAsset [("a", Bytes.enc asset1)] "a").2 "b" =
      registeredOf [("a", Bytes.enc asset1)] "b" ∧
    (registeredOf (DeleteAsset [("a", Bytes.enc asset1)] "a").2 "a" = none ∨
      (DeleteAsset [("a", Bytes.enc asset1)] "a").2 = [("a", Bytes.enc asset1)]) ∧
    registeredOf (ApproveRequestTwo [("a", Bytes.enc asset1)] "a").2 "b" =
      registeredOf [("a", Bytes.enc asset1)] "b" ∧
    registeredOf (ApproveRequestTwo [("a", Bytes.enc asset1)] "a").2 "a" = some 1 :=
  have h := C2_registered_invariant [("a", Bytes.enc asset1)] "a" "b" "x"
  ⟨h.1, h.2.1, h.2.2.1 (by decide), h.2.2.2.1 (by simp),
   h.2.2.2.2.1 (by decide), h.2.2.2.2.2 rfl⟩

end FabricUtility
